import Mathlib

/-!
# Verification of the asd-cli process supervisor and path resolver

Shallow embedding of the readiness prober, daemon supervisor, termination
primitive and PID-file stop path of
`src/modules/core/proc/process-manager.mjs`, and of the path resolvers of
`modules/core/helpers/common.mjs` (src/unnamed/part_001).

Modelling conventions:
* Real time is abstracted away: a polling loop bounded by a deadline is
  modelled over the finite list of observations (fetch responses, file
  snapshots) the loop manages to make before its deadline elapses.
* The operating system is an oracle: process aliveness is a function
  `Int → Bool`, the filesystem is the list of directories that exist,
  a spawn is described by an `AttemptEnv` record of the boolean outcomes
  the code observes at each of its checkpoints.
* JavaScript semantics that matter are reproduced exactly:
  `Number.parseInt(·, 10)` on a trimmed string, truthiness of `""`,
  `String.prototype.includes`, and the case-insensitive regex
  `/[A-Z]:\\a\\.asd\\.asd/i`.
-/

namespace ASDCli

/-! ## String helpers (JS `slice`, `includes`, regex shapes) -/

/-- JS `text.slice(offset)`: drop the first `offset` code units. -/
def jsSlice (s : String) (off : Nat) : String := String.mk (s.data.drop off)

theorem jsSlice_zero (s : String) : jsSlice s 0 = s := by
  cases s
  rfl

/-- Does `pat` match at the head of the character list? -/
def matchAt : List Char → List Char → Bool
  | [], _ => true
  | _ :: _, [] => false
  | p :: ps, c :: cs => p == c && matchAt ps cs

/-- Does `pat` occur anywhere in the character list? -/
def hasInfix (pat : List Char) : List Char → Bool
  | [] => matchAt pat []
  | c :: cs => matchAt pat (c :: cs) || hasInfix pat cs

/-- JS `s.includes(pat)`. -/
def strIncludes (s pat : String) : Bool := hasInfix pat.data s.data

/-- Case-insensitive match of `pat` at the head of the character list
(model of the `i` regex flag). -/
def ciPrefixAt : List Char → List Char → Bool
  | [], _ => true
  | _ :: _, [] => false
  | p :: ps, c :: cs => (p.toLower == c.toLower) && ciPrefixAt ps cs

/-! ## C2: HTTP readiness (`waitForHTTP`, `okStatus`) -/

/-- Model of `okStatus` from process-manager.mjs: `code >= 200 && code < 500`. -/
def okStatus (code : Nat) : Bool := decide (200 ≤ code) && decide (code < 500)

/-- Model of `waitForHTTP` from process-manager.mjs, with the poll loop abstracted
over the finite list of fetch outcomes observed before the deadline:
`none` is a network error (the `catch` arm), `some code` a response status.
The loop returns `true` at the first `okStatus` response and `false` when
the time budget is exhausted (list end). -/
def waitForHTTP : List (Option Nat) → Bool
  | [] => false
  | none :: rest => waitForHTTP rest
  | some code :: rest => if okStatus code then true else waitForHTTP rest

/-! ## C1: log-regex readiness (`waitForLogPattern`) -/

/-- Model of `waitForLogPattern` from process-manager.mjs. The regex is abstracted
as a `test : String → Bool`; the poll loop is abstracted over the list of
file reads it performs before the deadline (`none` = the read threw, the
`catch` arm, which leaves `offset` unchanged). Each successful poll tests
`text.slice(offset)` and then sets `offset := text.length`. The initial
call uses `offset = 0`. -/
def waitForLogPattern (test : String → Bool) : Nat → List (Option String) → Bool
  | _, [] => false
  | off, none :: rest => waitForLogPattern test off rest
  | off, some t :: rest =>
    if test (jsSlice t off) then true else waitForLogPattern test t.data.length rest

/-- The successive slices `waitForLogPattern` applies its regex to. -/
def pollSlices : Nat → List (Option String) → List String
  | _, [] => []
  | off, none :: rest => pollSlices off rest
  | off, some t :: rest => jsSlice t off :: pollSlices t.data.length rest

/-- Concrete regex for the C1 counterexample: `/READY/`. -/
def readyTest (s : String) : Bool := strIncludes s "READY"

/-! ## Theorems for C1 and C2 -/

/-- C2: `waitForHTTP` returns `true` iff some GET performed before the
deadline returned a status in `[200, 500)`; responses with status `≥ 500`
and network errors (`none`) leave it polling, and exhausting the time
budget (end of the observation list) yields `false`. -/
theorem waitForHTTP_ready_iff (resps : List (Option Nat)) :
    waitForHTTP resps = true ↔ ∃ c, some c ∈ resps ∧ 200 ≤ c ∧ c < 500 := by
  induction resps with
  | nil => simp [waitForHTTP]
  | cons r rest ih =>
    cases r with
    | none => simpa [waitForHTTP] using ih
    | some code =>
      cases hok : okStatus code with
      | true =>
        have hcode : 200 ≤ code ∧ code < 500 := by
          simpa [okStatus] using hok
        have hw : waitForHTTP (some code :: rest) = true := by
          simp [waitForHTTP, hok]
        rw [hw]
        exact iff_of_true rfl ⟨code, List.mem_cons_self _ _, hcode.1, hcode.2⟩
      | false =>
        have hw : waitForHTTP (some code :: rest) = waitForHTTP rest := by
          simp [waitForHTTP, hok]
        have hcode : ¬(200 ≤ code ∧ code < 500) := by
          intro hc
          have hok2 : okStatus code = true := by
            simp only [okStatus, Bool.and_eq_true, decide_eq_true_eq]
            exact ⟨hc.1, hc.2⟩
          rw [hok] at hok2
          exact Bool.false_ne_true hok2
        rw [hw, ih]
        constructor
        · rintro ⟨c, hc, h1, h2⟩
          exact ⟨c, List.mem_cons_of_mem _ hc, h1, h2⟩
        · rintro ⟨c, hc, h1, h2⟩
          rcases List.mem_cons.mp hc with hceq | hmem
          · cases Option.some.inj hceq
            exact (hcode ⟨h1, h2⟩).elim
          · exact ⟨c, hmem, h1, h2⟩

/-- C1 counterexample: the pattern `READY` is present only in the
pre-existing content of the log file at probe start (`"READY"` is the
first snapshot, and nothing is appended afterwards — the appended slice
is empty and does not match), yet the probe reports ready on its first
poll, because the initial offset is `0` and the first slice is the whole
file. This refutes the claim that a match existing only in pre-existing
content is never reported as ready. -/
theorem waitForLogPattern_preexisting_match_accepted :
    waitForLogPattern readyTest 0 [some "READY", some "READY"] = true
    ∧ readyTest "" = false
    ∧ pollSlices ("READY".data.length) [some "READY"] = [""] := by
  refine ⟨by decide, by decide, by decide⟩

/-- C1 amended: `waitForLogPattern` succeeds iff the regex matches one of
the successive slices, where the slice of the first successful read is
the **entire** file content at that moment — pre-existing content
included, since the initial offset is `0` — and each later slice is only
the content past the previously observed file length. -/
theorem waitForLogPattern_slice_characterisation (test : String → Bool) :
    (∀ off snaps, waitForLogPattern test off snaps = (pollSlices off snaps).any test)
    ∧ (∀ t rest, pollSlices 0 (some t :: rest) = t :: pollSlices t.data.length rest) := by
  constructor
  · intro off snaps
    induction snaps generalizing off with
    | nil => simp [waitForLogPattern, pollSlices]
    | cons s rest ih =>
      cases s with
      | none => simp [waitForLogPattern, pollSlices, ih]
      | some t =>
        by_cases h : test (jsSlice t off) = true
        · simp [waitForLogPattern, pollSlices, h]
        · simp [waitForLogPattern, pollSlices, h, ih]
  · intro t rest
    simp [pollSlices, jsSlice_zero]

/-! ## PID parsing (`Number.parseInt(raw, 10)` on a trimmed string) -/

/-- Value of a leading run of decimal digits; `none` when there is no
digit (JS `parseInt` yields `NaN` then, and `Number.isFinite(NaN)` is
`false`). Trailing non-digit characters are ignored, as in JS. -/
def pidDigits (cs : List Char) : Option Nat :=
  let ds := cs.takeWhile Char.isDigit
  if ds.isEmpty then none
  else some (ds.foldl (fun acc c => acc * 10 + (c.toNat - 48)) 0)

/-- ASCII whitespace, for JS `String.prototype.trim`. -/
def isJsSpace (c : Char) : Bool :=
  c == ' ' || c == '\n' || c == '\t' || c == '\r' || c == '\x0b' || c == '\x0c'

/-- JS `raw.trim()` on the character list. -/
def trimChars (cs : List Char) : List Char :=
  ((cs.dropWhile isJsSpace).reverse.dropWhile isJsSpace).reverse

/-- Model of `Number.parseInt(raw.trim(), 10)` restricted to the finite outcomes the
supervisor distinguishes: `some n` when a finite integer is parsed,
`none` when the result is `NaN`. An optional sign is honoured. -/
def parsePid (raw : String) : Option Int :=
  match trimChars raw.data with
  | '-' :: rest => (pidDigits rest).map (fun n => -(n : Int))
  | '+' :: rest => (pidDigits rest).map (fun n => (n : Int))
  | cs => (pidDigits cs).map (fun n => (n : Int))

/-! ## C3/C4/C8: the daemon supervisor (`ProcessManager.startDaemon`)

One `startDaemon` call is driven by OS oracles: `alive : Int → Bool` is
`isAlive` as used by the stale-PID-file check, and each spawn attempt is
summarised by an `AttemptEnv` — the boolean outcomes the code observes at
its checkpoints (aliveness after the startup sleep, readiness result,
aliveness after readiness, and whether less than `minUptimeMs` elapsed).
The retry recursion consumes one `AttemptEnv` per spawn attempt; `none`
is returned only when the supplied oracle list is too short. -/

inductive Policy
  | never
  | onFailure
deriving DecidableEq

inductive DStatus
  | alreadyRunning
  | failed
  | started
deriving DecidableEq

structure AttemptEnv where
  spawnPid : Int
  aliveAfterDelay : Bool
  readyOk : Bool
  aliveAfterReady : Bool
  withinMinUptime : Bool
deriving DecidableEq

/-- The `{ status, pid, alive, ready }` object `startDaemon` returns
(`ready = none` models an absent `ready` field). -/
structure DResult where
  status : DStatus
  pid : Int
  alive : Bool
  ready : Option Bool
deriving DecidableEq

/-- A `startDaemon` outcome together with the final PID-file content
(`none` = file absent) and the number of spawn attempts performed. -/
structure DOutcome where
  result : DResult
  pidFile : Option String
  spawns : Nat
deriving DecidableEq

/-- The stale-PID-file test of `startDaemon`: the file exists, its parsed
content is a finite integer `> 1`, and that PID is alive. -/
def pidFileAlready (alive : Int → Bool) : Option String → Option Int
  | none => none
  | some raw =>
    match parsePid raw with
    | some p => if 1 < p ∧ alive p = true then some p else none
    | none => none

/-- Content written to the PID-file: the spawned PID plus a newline. -/
def pidToFileContent (pid : Int) : String := toString pid ++ "\n"

/-- Model of `ProcessManager.startDaemon`, per attempt:
1. if the PID-file names a live PID `> 1`, return `already-running`;
2. otherwise remove the stale file, spawn, write the new PID to the file;
3. after the startup sleep, if the child is dead, remove the PID-file and
   return `failed`;
4. evaluate readiness; on readiness failure with the child dead within
   `minUptimeMs` and policy `on-failure`, recurse once with policy
   `never` and the same arguments; otherwise return `started` with
   `ready` reflecting the probe result. -/
def startDaemonGo (alive : Int → Bool) :
    Policy → Option String → List AttemptEnv → Option DOutcome
  | _, _, [] => none
  | policy, pidFile, env :: rest =>
    match pidFileAlready alive pidFile with
    | some p => some ⟨⟨DStatus.alreadyRunning, p, true, some true⟩, pidFile, 0⟩
    | none =>
      let pid := env.spawnPid
      let written : Option String := some (pidToFileContent pid)
      if env.aliveAfterDelay = false then
        some ⟨⟨DStatus.failed, pid, false, none⟩, none, 1⟩
      else if env.readyOk = true then
        some ⟨⟨DStatus.started, pid, true, some true⟩, written, 1⟩
      else if policy = Policy.onFailure ∧ (!env.aliveAfterReady && env.withinMinUptime) = true then
        match startDaemonGo alive Policy.never written rest with
        | some out => some ⟨out.result, out.pidFile, out.spawns + 1⟩
        | none => none
      else
        some ⟨⟨DStatus.started, pid, true, some false⟩, written, 1⟩

/-- One-step unfolding of `startDaemonGo` on a non-empty attempt list. -/
theorem startDaemonGo_cons (alive : Int → Bool) (policy : Policy) (pidFile : Option String)
    (env : AttemptEnv) (rest : List AttemptEnv) :
    startDaemonGo alive policy pidFile (env :: rest)
      = match pidFileAlready alive pidFile with
        | some p => some ⟨⟨DStatus.alreadyRunning, p, true, some true⟩, pidFile, 0⟩
        | none =>
          if env.aliveAfterDelay = false then
            some ⟨⟨DStatus.failed, env.spawnPid, false, none⟩, none, 1⟩
          else if env.readyOk = true then
            some ⟨⟨DStatus.started, env.spawnPid, true, some true⟩,
              some (pidToFileContent env.spawnPid), 1⟩
          else if policy = Policy.onFailure
              ∧ (!env.aliveAfterReady && env.withinMinUptime) = true then
            match startDaemonGo alive Policy.never (some (pidToFileContent env.spawnPid)) rest with
            | some out => some ⟨out.result, out.pidFile, out.spawns + 1⟩
            | none => none
          else
            some ⟨⟨DStatus.started, env.spawnPid, true, some false⟩,
              some (pidToFileContent env.spawnPid), 1⟩ := rfl

/-- Oracle stating that no PID is alive. -/
def aliveNone : Int → Bool := fun _ => false

/-- Oracle under which exactly PID 1 (init) is alive. -/
def aliveOnlyInit : Int → Bool := fun p => decide (p = 1)

/-- Oracle under which exactly PID 99 is alive. -/
def aliveNinetyNine : Int → Bool := fun p => decide (p = 99)

/-- A `never`-policy attempt always completes (given its attempt oracle)
and performs at most one spawn: the retry branch requires `on-failure`. -/
theorem startDaemonGo_never (alive : Int → Bool) (pidFile : Option String)
    (env : AttemptEnv) (rest : List AttemptEnv) :
    ∃ out, startDaemonGo alive Policy.never pidFile (env :: rest) = some out
      ∧ out.spawns ≤ 1 := by
  cases h : pidFileAlready alive pidFile with
  | some p =>
    refine ⟨⟨⟨DStatus.alreadyRunning, p, true, some true⟩, pidFile, 0⟩, ?_, by simp⟩
    simp [startDaemonGo, h]
  | none =>
    cases hd : env.aliveAfterDelay with
    | false =>
      refine ⟨⟨⟨DStatus.failed, env.spawnPid, false, none⟩, none, 1⟩, ?_, by simp⟩
      simp [startDaemonGo, h, hd]
    | true =>
      cases hr : env.readyOk with
      | true =>
        refine ⟨⟨⟨DStatus.started, env.spawnPid, true, some true⟩,
          some (pidToFileContent env.spawnPid), 1⟩, ?_, by simp⟩
        simp [startDaemonGo, h, hd, hr]
      | false =>
        refine ⟨⟨⟨DStatus.started, env.spawnPid, true, some false⟩,
          some (pidToFileContent env.spawnPid), 1⟩, ?_, by simp⟩
        simp [startDaemonGo, h, hd, hr]

/-- C3 counterexample: a PID-file whose content is `"1"` names PID 1,
which is alive under the oracle, yet `startDaemon` does not return
`already-running`: the guard additionally requires the parsed PID to be
`> 1`, so the file is treated as stale and a fresh spawn proceeds. -/
theorem startDaemon_pidfile_one_counterexample :
    aliveOnlyInit 1 = true
    ∧ parsePid "1" = some 1
    ∧ startDaemonGo aliveOnlyInit Policy.never (some "1") [⟨77, true, true, true, true⟩]
        = some ⟨⟨DStatus.started, 77, true, some true⟩, some "77\n", 1⟩ := by
  refine ⟨by decide, by decide, by decide⟩

/-- C3 amended: if the PID-file content parses to a finite PID strictly
greater than 1 that is currently alive, `startDaemon` returns
`already-running` with that PID and spawns nothing, leaving the file in
place; in every other case (stale PID, PID ≤ 1, unparseable content) the
file is removed and at least one fresh spawn proceeds; when that spawn
survives the startup check and readiness succeeds, the call ends with the
new PID written to the file. -/
theorem startDaemon_pidfile_reclaim (alive : Int → Bool) (policy : Policy) (raw : String)
    (env1 env2 : AttemptEnv) (rest : List AttemptEnv) :
    (∀ p, parsePid raw = some p → 1 < p → alive p = true →
      startDaemonGo alive policy (some raw) (env1 :: env2 :: rest)
        = some ⟨⟨DStatus.alreadyRunning, p, true, some true⟩, some raw, 0⟩)
    ∧ (pidFileAlready alive (some raw) = none →
      ∃ out, startDaemonGo alive policy (some raw) (env1 :: env2 :: rest) = some out
        ∧ 1 ≤ out.spawns
        ∧ (env1.aliveAfterDelay = true → env1.readyOk = true →
            out = ⟨⟨DStatus.started, env1.spawnPid, true, some true⟩,
                   some (pidToFileContent env1.spawnPid), 1⟩)) := by
  constructor
  · intro p hp hgt halive
    have hphase : pidFileAlready alive (some raw) = some p := by
      simp [pidFileAlready, hp, hgt, halive]
    simp [startDaemonGo, hphase]
  · intro hnone
    cases hd : env1.aliveAfterDelay with
    | false =>
      refine ⟨⟨⟨DStatus.failed, env1.spawnPid, false, none⟩, none, 1⟩, ?_, by simp, ?_⟩
      · simp [startDaemonGo, hnone, hd]
      · intro h1
        exact Bool.noConfusion h1
    | true =>
      cases hr : env1.readyOk with
      | true =>
        refine ⟨⟨⟨DStatus.started, env1.spawnPid, true, some true⟩,
          some (pidToFileContent env1.spawnPid), 1⟩, ?_, by simp, fun _ _ => rfl⟩
        simp [startDaemonGo, hnone, hd, hr]
      | false =>
        by_cases hc : policy = Policy.onFailure
          ∧ (!env1.aliveAfterReady && env1.withinMinUptime) = true
        · obtain ⟨out2, hout2, hsp2⟩ :=
            startDaemonGo_never alive (some (pidToFileContent env1.spawnPid)) env2 rest
          refine ⟨⟨out2.result, out2.pidFile, out2.spawns + 1⟩, ?_, by simp, ?_⟩
          · rw [startDaemonGo_cons, hout2, hnone]
            simp [hd, hr, hc]
          · intro _ h2
            exact Bool.noConfusion h2
        · refine ⟨⟨⟨DStatus.started, env1.spawnPid, true, some false⟩,
            some (pidToFileContent env1.spawnPid), 1⟩, ?_, by simp, ?_⟩
          · rw [startDaemonGo_cons, hnone]
            simp only [hd, hr]
            simp
            intro h1 h2 h3
            exact absurd ⟨h1, by simp [h2, h3]⟩ hc
          · intro _ h2
            exact Bool.noConfusion h2

/-- C3 amended, instantiated: a stale PID-file `"9"` (no PID alive except
1) is reclaimed and the new PID 77 is written; a PID-file `"99"` with PID
99 alive yields `already-running` with zero spawns. -/
theorem startDaemon_pidfile_reclaim_witness :
    startDaemonGo aliveOnlyInit Policy.never (some "9")
        [⟨77, true, true, true, true⟩, ⟨78, true, true, true, true⟩]
      = some ⟨⟨DStatus.started, 77, true, some true⟩, some "77\n", 1⟩
    ∧ startDaemonGo aliveNinetyNine Policy.never (some "99")
        [⟨77, true, true, true, true⟩, ⟨78, true, true, true, true⟩]
      = some ⟨⟨DStatus.alreadyRunning, 99, true, some true⟩, some "99", 0⟩ := by
  constructor
  · obtain ⟨out, ho, _, hspec⟩ :=
      (startDaemon_pidfile_reclaim aliveOnlyInit Policy.never "9"
        ⟨77, true, true, true, true⟩ ⟨78, true, true, true, true⟩ []).2 (by decide)
    rw [hspec rfl rfl] at ho
    exact ho.trans (by decide)
  · exact (startDaemon_pidfile_reclaim aliveNinetyNine Policy.never "99"
      ⟨77, true, true, true, true⟩ ⟨78, true, true, true, true⟩ []).1 99
      (by decide) (by decide) (by decide)

/-- C4: with policy `on-failure`, when readiness fails, the child is no
longer alive, and less than `minUptimeMs` elapsed, `startDaemon` performs
exactly one retry — a recursive call with the same arguments and policy
`never` — so at most two spawns occur per call; when readiness fails but
the child is still alive, no retry occurs and the call returns `started`
with `ready = false` after its single spawn. -/
theorem startDaemon_on_failure_retry (alive : Int → Bool) (pidFile : Option String)
    (env1 env2 : AttemptEnv) (rest : List AttemptEnv)
    (hphase : pidFileAlready alive pidFile = none)
    (hdelay : env1.aliveAfterDelay = true) :
    (env1.readyOk = false → env1.aliveAfterReady = false → env1.withinMinUptime = true →
      (startDaemonGo alive Policy.onFailure pidFile (env1 :: env2 :: rest)
        = (startDaemonGo alive Policy.never
            (some (pidToFileContent env1.spawnPid)) (env2 :: rest)).map
              (fun out => ⟨out.result, out.pidFile, out.spawns + 1⟩)
      ∧ ∀ out, startDaemonGo alive Policy.onFailure pidFile (env1 :: env2 :: rest)
          = some out → out.spawns ≤ 2))
    ∧ (env1.readyOk = false → env1.aliveAfterReady = true →
      startDaemonGo alive Policy.onFailure pidFile (env1 :: env2 :: rest)
        = some ⟨⟨DStatus.started, env1.spawnPid, true, some false⟩,
                some (pidToFileContent env1.spawnPid), 1⟩) := by
  constructor
  · intro hr ha hm
    obtain ⟨out2, hout2, hsp2⟩ :=
      startDaemonGo_never alive (some (pidToFileContent env1.spawnPid)) env2 rest
    have heq : startDaemonGo alive Policy.onFailure pidFile (env1 :: env2 :: rest)
        = some ⟨out2.result, out2.pidFile, out2.spawns + 1⟩ := by
      rw [startDaemonGo_cons, hout2, hphase]
      simp [hdelay, hr, ha, hm]
    refine ⟨?_, ?_⟩
    · rw [heq, hout2]
      rfl
    · intro out hout
      rw [heq] at hout
      cases Option.some.inj hout
      simpa using Nat.add_le_add_right hsp2 1
  · intro hr ha
    rw [startDaemonGo_cons, hphase]
    simp [hdelay, hr, ha]

/-- C4, instantiated: a first spawn (PID 5) that crashes before readiness
inside the warmup window triggers exactly one retry with policy `never`;
the second spawn (PID 6) becomes ready and the call reports two spawns.
A first spawn that stays alive with failed readiness returns `started`
with `ready = false` after one spawn. -/
theorem startDaemon_on_failure_retry_witness :
    startDaemonGo aliveNone Policy.onFailure none
        [⟨5, true, false, false, true⟩, ⟨6, true, true, true, true⟩]
      = some ⟨⟨DStatus.started, 6, true, some true⟩, some "6\n", 2⟩
    ∧ startDaemonGo aliveNone Policy.onFailure none
        [⟨5, true, false, true, true⟩, ⟨6, true, true, true, true⟩]
      = some ⟨⟨DStatus.started, 5, true, some false⟩, some "5\n", 1⟩ := by
  constructor
  · have h := (startDaemon_on_failure_retry aliveNone none ⟨5, true, false, false, true⟩
      ⟨6, true, true, true, true⟩ [] (by decide) rfl).1 rfl rfl rfl
    exact h.1.trans (by decide)
  · have h := (startDaemon_on_failure_retry aliveNone none ⟨5, true, false, true, true⟩
      ⟨6, true, true, true, true⟩ [] (by decide) rfl).2 rfl rfl
    exact h.trans (by decide)

/-- C8: whenever a `startDaemon` call reaches the spawn step (the
PID-file check does not short-circuit) and the spawned PID is no longer
alive after the startup sleep, the just-written PID-file is removed and
the call returns `failed` with `alive = false` — the PID-file never
outlives an immediately-dead child. -/
theorem startDaemon_immediate_death (alive : Int → Bool) (policy : Policy)
    (pidFile : Option String) (env : AttemptEnv) (rest : List AttemptEnv)
    (hphase : pidFileAlready alive pidFile = none)
    (hdead : env.aliveAfterDelay = false) :
    startDaemonGo alive policy pidFile (env :: rest)
      = some ⟨⟨DStatus.failed, env.spawnPid, false, none⟩, none, 1⟩ := by
  simp [startDaemonGo, hphase, hdead]

/-- C8, instantiated at a stale PID-file `"7"` and a child (PID 42) that
dies during the startup sleep. -/
theorem startDaemon_immediate_death_witness :
    startDaemonGo aliveNone Policy.never (some "7") [⟨42, false, true, true, true⟩]
      = some ⟨⟨DStatus.failed, 42, false, none⟩, none, 1⟩ :=
  startDaemon_immediate_death aliveNone Policy.never (some "7")
    ⟨42, false, true, true, true⟩ [] (by decide) rfl

/-! ## C6: termination (`killProcessTree`, Unix branch)

Each `process.kill` syscall is modelled by `procKill` against a
`gone : Int → Bool` oracle (a target that is gone makes the syscall throw
`ESRCH`); the `try { … } catch { }` wrapper around every syscall is
`tryKill`, which swallows the error. Because every syscall is wrapped,
`killProcessTree` is total — it never propagates an exception — and
returns the ordered trace of its effects. -/

inductive Sig
  | sigterm
  | sigkill
deriving DecidableEq

inductive KillEvent
  | signal (target : Int) (s : Sig)
  | wait (ms : Nat)
deriving DecidableEq

/-- A raw `process.kill(target, sig)`; throws when the target is gone. -/
def procKill (gone : Int → Bool) (target : Int) (s : Sig) : Except String KillEvent :=
  if gone target then Except.error "ESRCH" else Except.ok (KillEvent.signal target s)

/-- Model of `try { process.kill(…) } catch { }`: the delivered event, or nothing. -/
def tryKill (gone : Int → Bool) (target : Int) (s : Sig) : List KillEvent :=
  match procKill gone target s with
  | Except.ok e => [e]
  | Except.error _ => []

/-- Model of `killProcessTree` (Unix branch) from process-manager.mjs:
SIGTERM to the process group `-pid` (when `killGroup`), SIGTERM to `pid`,
sleep `gentleMs`, SIGKILL to `-pid` (when `killGroup`), SIGKILL to `pid`;
every syscall individually wrapped. -/
def killProcessTree (gone : Int → Bool) (pid : Int) (gentleMs : Nat) (killGroup : Bool) :
    List KillEvent :=
  (if killGroup then tryKill gone (-pid) Sig.sigterm else [])
  ++ tryKill gone pid Sig.sigterm
  ++ [KillEvent.wait gentleMs]
  ++ (if killGroup then tryKill gone (-pid) Sig.sigkill else [])
  ++ tryKill gone pid Sig.sigkill

/-- The canonical order in which `killProcessTree` attempts its
syscalls: group-TERM, pid-TERM, wait, group-KILL, pid-KILL. -/
def killAttemptOrder (pid : Int) (gentleMs : Nat) (killGroup : Bool) : List KillEvent :=
  (if killGroup then [KillEvent.signal (-pid) Sig.sigterm] else [])
  ++ [KillEvent.signal pid Sig.sigterm, KillEvent.wait gentleMs]
  ++ (if killGroup then [KillEvent.signal (-pid) Sig.sigkill] else [])
  ++ [KillEvent.signal pid Sig.sigkill]

/-- Which attempted events are delivered: signals to a gone target are
swallowed by the per-syscall `catch`. -/
def deliveredEvent (gone : Int → Bool) (e : KillEvent) : Bool :=
  match e with
  | KillEvent.signal t _ => !gone t
  | KillEvent.wait _ => true

/-- C6: Unix termination is two-phase in a fixed order — SIGTERM to the
process group `-pid` (when `killGroup`) then to `pid`, a `gentleMs` wait,
then SIGKILL to `-pid` (when `killGroup`) then to `pid`. For **every**
process-state oracle the function totals to exactly the canonical attempt
order filtered by deliverability (a gone target is tolerated silently,
never an exception), and when every target exists the full ordered trace
is delivered. -/
theorem killProcessTree_two_phase (gone : Int → Bool) (pid : Int) (g : Nat) (kg : Bool) :
    killProcessTree gone pid g kg
      = (killAttemptOrder pid g kg).filter (deliveredEvent gone)
    ∧ killProcessTree (fun _ => false) pid g kg = killAttemptOrder pid g kg := by
  constructor
  · cases hg : gone (-pid) with
    | true =>
      cases hp : gone pid with
      | true =>
        cases kg <;>
          simp [killProcessTree, killAttemptOrder, tryKill, procKill,
            deliveredEvent, hg, hp, List.filter]
      | false =>
        cases kg <;>
          simp [killProcessTree, killAttemptOrder, tryKill, procKill,
            deliveredEvent, hg, hp, List.filter]
    | false =>
      cases hp : gone pid with
      | true =>
        cases kg <;>
          simp [killProcessTree, killAttemptOrder, tryKill, procKill,
            deliveredEvent, hg, hp, List.filter]
      | false =>
        cases kg <;>
          simp [killProcessTree, killAttemptOrder, tryKill, procKill,
            deliveredEvent, hg, hp, List.filter]
  · cases kg <;>
      simp [killProcessTree, killAttemptOrder, tryKill, procKill, List.filter]

/-! ## C7/C10: `ProcessManager.stopByPidFile`

The PID-file is modelled by its content (`none` = the file does not exist,
so `readFile` throws `ENOENT`). The outcome records the returned object,
the final file state, and the trace of signals sent. -/

structure StopOutcome where
  stopped : Bool
  pid : Option Int
  reason : Option String
  errMsg : Option String
  pidFile : Option String
  signals : List KillEvent
deriving DecidableEq

/-- Model of `ProcessManager.stopByPidFile`: read the file (`ENOENT` →
`{ stopped: false, reason: "no-pidfile" }`); parse the PID; a non-finite
or `≤ 1` PID throws, caught as `{ stopped: false, error: … }` with the
file left in place and no signal sent; otherwise `killProcessTree` then
`rm` the file and return `{ stopped: true, pid }`. -/
def stopByPidFile (gone : Int → Bool) (content : Option String)
    (gentleMs : Nat) (killGroup : Bool) : StopOutcome :=
  match content with
  | none => ⟨false, none, some "no-pidfile", none, none, []⟩
  | some raw =>
    match parsePid raw with
    | none => ⟨false, none, none, some "invalid pid", some raw, []⟩
    | some p =>
      if p ≤ 1 then ⟨false, none, none, some "invalid pid", some raw, []⟩
      else ⟨true, some p, none, none, none, killProcessTree gone p gentleMs killGroup⟩

/-- C7: when `stopByPidFile` finds a valid PID (parsed, finite, `> 1`),
the PID-file is absent after the call, so a subsequent `startDaemon` on
the same file — whose healthy spawn passes the startup check and
readiness — returns `started` (never `already-running`); when the
PID-file does not exist the call returns
`{ stopped: false, reason: "no-pidfile" }` and signals nothing. -/
theorem stopByPidFile_then_start (gone : Int → Bool) (alive : Int → Bool)
    (raw : String) (p : Int) (g : Nat) (kg : Bool) (policy : Policy)
    (env : AttemptEnv) (rest : List AttemptEnv)
    (hp : parsePid raw = some p) (hgt : 1 < p) :
    ((stopByPidFile gone (some raw) g kg).pidFile = none
      ∧ (stopByPidFile gone (some raw) g kg).stopped = true
      ∧ (stopByPidFile gone (some raw) g kg).pid = some p)
    ∧ (env.aliveAfterDelay = true → env.readyOk = true →
        startDaemonGo alive policy ((stopByPidFile gone (some raw) g kg).pidFile) (env :: rest)
          = some ⟨⟨DStatus.started, env.spawnPid, true, some true⟩,
                  some (pidToFileContent env.spawnPid), 1⟩)
    ∧ stopByPidFile gone none g kg = ⟨false, none, some "no-pidfile", none, none, []⟩ := by
  have hstop : stopByPidFile gone (some raw) g kg
      = ⟨true, some p, none, none, none, killProcessTree gone p g kg⟩ := by
    simp only [stopByPidFile]
    rw [hp]
    simp [not_le.mpr hgt]
  refine ⟨by rw [hstop]; exact ⟨rfl, rfl, rfl⟩, ?_, rfl⟩
  intro hd hr
  rw [hstop]
  rw [startDaemonGo_cons]
  simp [pidFileAlready, hd, hr]

/-- C7, instantiated: stopping via a PID-file containing `"1234"` leaves
the file absent and a follow-up healthy start returns `started` with the
fresh PID 55; a missing PID-file yields the `no-pidfile` outcome. -/
theorem stopByPidFile_then_start_witness :
    (stopByPidFile aliveNone (some "1234") 100 true).pidFile = none
    ∧ startDaemonGo aliveNone Policy.never
        ((stopByPidFile aliveNone (some "1234") 100 true).pidFile)
        [⟨55, true, true, true, true⟩]
      = some ⟨⟨DStatus.started, 55, true, some true⟩, some "55\n", 1⟩
    ∧ stopByPidFile aliveNone none 100 true
      = ⟨false, none, some "no-pidfile", none, none, []⟩ := by
  have h := stopByPidFile_then_start aliveNone aliveNone "1234" 1234 100 true Policy.never
    ⟨55, true, true, true, true⟩ [] (by decide) (by decide)
  exact ⟨h.1.1, (h.2.1 rfl rfl).trans (by decide), h.2.2⟩

/-- C10: a PID-file whose content does not parse to a finite integer
strictly greater than 1 (empty, non-numeric, `0`, `1`, or negative) makes
`stopByPidFile` return `stopped = false` with an error, and **no** signal
is sent to any process — in particular neither PID 0 and PID 1 nor their
negative process-group forms are ever signalled through a corrupt
PID-file. -/
theorem stopByPidFile_corrupt_is_inert (gone : Int → Bool) (raw : String)
    (g : Nat) (kg : Bool)
    (hbad : parsePid raw = none ∨ ∃ p, parsePid raw = some p ∧ p ≤ 1) :
    (stopByPidFile gone (some raw) g kg).stopped = false
    ∧ (stopByPidFile gone (some raw) g kg).errMsg = some "invalid pid"
    ∧ (stopByPidFile gone (some raw) g kg).signals = [] := by
  rcases hbad with hnone | ⟨p, hp, hle⟩
  · simp only [stopByPidFile]
    rw [hnone]
    exact ⟨rfl, rfl, rfl⟩
  · simp only [stopByPidFile]
    rw [hp]
    simp [hle]

/-- C10, instantiated at the contents `"1"`, `"0"`, `"-7"`, `""` and
`"abc"`: all are rejected without any signal. -/
theorem stopByPidFile_corrupt_is_inert_witness :
    (stopByPidFile aliveOnlyInit (some "1") 100 true).signals = []
    ∧ (stopByPidFile aliveOnlyInit (some "0") 100 true).signals = []
    ∧ (stopByPidFile aliveOnlyInit (some "-7") 100 true).signals = []
    ∧ (stopByPidFile aliveOnlyInit (some "") 100 true).signals = []
    ∧ (stopByPidFile aliveOnlyInit (some "abc") 100 true).stopped = false := by
  refine ⟨?_, ?_, ?_, ?_, ?_⟩
  · exact (stopByPidFile_corrupt_is_inert aliveOnlyInit "1" 100 true
      (Or.inr ⟨1, by decide, by decide⟩)).2.2
  · exact (stopByPidFile_corrupt_is_inert aliveOnlyInit "0" 100 true
      (Or.inr ⟨0, by decide, by decide⟩)).2.2
  · exact (stopByPidFile_corrupt_is_inert aliveOnlyInit "-7" 100 true
      (Or.inr ⟨-7, by decide, by decide⟩)).2.2
  · exact (stopByPidFile_corrupt_is_inert aliveOnlyInit "" 100 true
      (Or.inl (by decide))).2.2
  · exact (stopByPidFile_corrupt_is_inert aliveOnlyInit "abc" 100 true
      (Or.inl (by decide))).1

/-! ## C5/C9: the path resolvers of `modules/core/helpers/common.mjs`

The filesystem is the list of directories that exist; `mkdirSync(p,
{recursive:true})` records `p`. Environment lookups and the results of
`resolveProjectRoot` / `resolveAsdDir` (pure functions of env and cwd,
not themselves under test) are fields of a `PathEnv` oracle.
`pathMisconfigurationWarned`, the module-level once-per-process flag, is
threaded explicitly. Paths are joined Unix-style. -/

/-- Directories that currently exist. -/
structure FS where
  dirs : List String
deriving DecidableEq

/-- Model of `existsSync` on a directory. -/
def existsD (fs : FS) (p : String) : Bool := fs.dirs.contains p

/-- Model of `if (!existsSync(p)) mkdirSync(p, { recursive: true })`. -/
def mkdirIfAbsent (fs : FS) (p : String) : FS :=
  if existsD fs p then fs else ⟨p :: fs.dirs⟩

/-- Model of `path.join(a, b)` (Unix convention). -/
def joinP (a b : String) : String := a ++ "/" ++ b

/-- Model of `path.isAbsolute` (Unix convention). -/
def isAbsolutePath (s : String) : Bool :=
  match s.data with
  | [] => false
  | c :: _ => c == '/'

/-- Environment and ambient inputs of one resolver call. -/
structure PathEnv where
  sandboxDir : Option String
  executionDir : Option String
  asdWorkspaceDir : Option String
  workspaceDirVar : Option String
  asdBinDir : Option String
  asdBinLocation : Option String
  configBinLocation : Option String
  asdHome : Option String
  xdgDataHome : Option String
  home : String
  projectRoot : String
  asdDir : String
  hasLocalAsdModules : Bool

/-- JS `a || b` on env strings: the empty string is falsy. -/
def envOr (a b : Option String) : Option String :=
  match a with
  | some s => if s.isEmpty then b else some s
  | none => b

/-- The `v && v.trim()` guard: yields the trimmed value when both the
value and its trim are truthy. -/
def envSet (v : Option String) : Option String :=
  match v with
  | some s => if s.isEmpty then none else if (trimChars s.data).isEmpty then none
      else some (String.mk (trimChars s.data))
  | none => none

/-- The Windows shape `/[A-Z]:\\a\\.asd\\.asd/i`: an ASCII letter,
then `:\a\.asd\.asd`, case-insensitively, anywhere in the string. -/
def winDriveDoubledAux : List Char → Bool
  | [] => false
  | c :: cs => (c.isAlpha && ciPrefixAt ":\\a\\.asd\\.asd".data cs) || winDriveDoubledAux cs

/-- Model of `isGitHubAsdRepo` from `resolveWorkspaceDir`: known CI layouts where a
repository named `.asd` legitimately produces a doubled path. -/
def isGitHubAsdRepoPath (dir : String) : Bool :=
  strIncludes dir "/work/.asd/.asd" || strIncludes dir "\\work\\.asd\\.asd"
    || winDriveDoubledAux dir.data

/-- The doubled-path test: `dir.includes(".asd/.asd") ||
dir.includes(".asd\\.asd")`. -/
def doubledAsdPath (dir : String) : Bool :=
  strIncludes dir ".asd/.asd" || strIncludes dir ".asd\\.asd"

/-- The directory `resolveWorkspaceDir` decides on, and whether it came
from the sandbox/execution early-return branch (which skips the
misconfiguration check and the subdirectory creation). Branch order as in
the source: sandbox/execution dir, then `ASD_WORKSPACE_DIR` /
`WORKSPACE_DIR` (relative values resolved against the project root), then
submodule (`.asd/workspace`), global-CLI (`project/workspace`), or
standalone (`asdDir/workspace`) modes. -/
def workspaceDirChoice (env : PathEnv) : String × Bool :=
  match envSet (envOr env.sandboxDir env.executionDir) with
  | some sb => (joinP (joinP sb ".asd") "workspace", true)
  | none =>
    match envSet (envOr env.asdWorkspaceDir env.workspaceDirVar) with
    | some e => (if isAbsolutePath e then e else joinP env.projectRoot e, false)
    | none =>
      if env.hasLocalAsdModules then
        (joinP (joinP env.projectRoot ".asd") "workspace", false)
      else if env.asdDir ≠ env.projectRoot ∧ env.asdDir ≠ joinP env.projectRoot ".asd" then
        (joinP env.projectRoot "workspace", false)
      else
        (joinP env.asdDir "workspace", false)

/-- The workspace auto-creation block: when the directory is absent,
create it and its `logs`, `network`, `tunnels` subdirectories. -/
def createWorkspaceTree (fs : FS) (dir : String) : FS :=
  if existsD fs dir then fs
  else
    let fs1 : FS := ⟨dir :: fs.dirs⟩
    let fs2 := mkdirIfAbsent fs1 (joinP dir "logs")
    let fs3 := mkdirIfAbsent fs2 (joinP dir "network")
    mkdirIfAbsent fs3 (joinP dir "tunnels")

/-- Result of one `resolveWorkspaceDir` call: the returned directory, the
new value of the warned-once flag, whether this call printed the doubled
`.asd/.asd` warning, and the filesystem after the call. -/
structure WsResult where
  dir : String
  warned : Bool
  emitted : Bool
  fs : FS
deriving DecidableEq

/-- Model of `resolveWorkspaceDir` from helpers/common.mjs. -/
def resolveWorkspaceDir (env : PathEnv) (warnedFlag : Bool) (fs : FS) : WsResult :=
  match workspaceDirChoice env with
  | (dir, true) => ⟨dir, warnedFlag, false, mkdirIfAbsent fs dir⟩
  | (dir, false) =>
    let emit := !isGitHubAsdRepoPath dir && !warnedFlag && doubledAsdPath dir
    ⟨dir, warnedFlag || emit, emit, createWorkspaceTree fs dir⟩

inductive BinLocation
  | locGlobal
  | locWorkspace
deriving DecidableEq

/-- The global-config fallback of `getBinLocation`. -/
def getBinLocationFromConfig (env : PathEnv) : BinLocation :=
  match env.configBinLocation with
  | some s =>
    if s = "workspace" then BinLocation.locWorkspace
    else BinLocation.locGlobal
  | none => BinLocation.locGlobal

/-- Model of `getBinLocation`: `ASD_BIN_LOCATION` env var, then global config,
then the default `"global"`. -/
def getBinLocation (env : PathEnv) : BinLocation :=
  match env.asdBinLocation with
  | some s =>
    if s = "workspace" then BinLocation.locWorkspace
    else if s = "global" then BinLocation.locGlobal
    else getBinLocationFromConfig env
  | none => getBinLocationFromConfig env

/-- Model of `XDG_DATA_HOME || join(home, ".local", "share")`. -/
def getAsdHomeDefaultBase (env : PathEnv) : String :=
  match env.xdgDataHome with
  | some x => if x.isEmpty then joinP (joinP env.home ".local") "share" else x
  | none => joinP (joinP env.home ".local") "share"

/-- Model of `getAsdHome` (Linux branch of global-config.mjs): `ASD_HOME` trimmed
when set and non-blank, else the XDG data dir plus `asd`. -/
def getAsdHome (env : PathEnv) : String :=
  match env.asdHome with
  | some h =>
    if h.isEmpty then joinP (getAsdHomeDefaultBase env) "asd"
    else if (trimChars h.data).isEmpty then joinP (getAsdHomeDefaultBase env) "asd"
    else String.mk (trimChars h.data)
  | none => joinP (getAsdHomeDefaultBase env) "asd"

/-- Model of `resolveGlobalBinDir`: `join(getAsdHome(), "bin")`. -/
def resolveGlobalBinDir (env : PathEnv) : String := joinP (getAsdHome env) "bin"

/-- The `ASD_BIN_DIR` guard of `resolveBinDir`: the trimmed value when
the variable is set and non-blank. -/
def binEnvActive (env : PathEnv) : Option String := envSet env.asdBinDir

/-- Result of a resolver that returns a path: the path, the new
warned-once flag, and the filesystem after the call. -/
structure ResolveResult where
  dir : String
  warned : Bool
  fs : FS
deriving DecidableEq

/-- The located branches of `resolveBinDir` (no `ASD_BIN_DIR`):
workspace bin (created if absent) or global bin (created if absent). -/
def resolveBinDirLocated (env : PathEnv) (warnedFlag : Bool) (fs : FS) : ResolveResult :=
  match getBinLocation env with
  | BinLocation.locWorkspace =>
    let r := resolveWorkspaceDir env warnedFlag fs
    let binDir := joinP r.dir "bin"
    ⟨binDir, r.warned, mkdirIfAbsent r.fs binDir⟩
  | BinLocation.locGlobal =>
    let g := resolveGlobalBinDir env
    ⟨g, warnedFlag, mkdirIfAbsent fs g⟩

/-- Model of `resolveBinDir` from helpers/common.mjs: when `ASD_BIN_DIR` is set
and non-blank, return its trimmed value **without creating anything**
(the source comment: "Don't create - CI installs binaries there");
otherwise resolve by bin location and create the directory if absent. -/
def resolveBinDir (env : PathEnv) (warnedFlag : Bool) (fs : FS) : ResolveResult :=
  match binEnvActive env with
  | some d => ⟨d, warnedFlag, fs⟩
  | none => resolveBinDirLocated env warnedFlag fs

/-- Model of `resolveLogPath`: the workspace `logs` directory (created if absent)
joined with the file name. -/
def resolveLogPath (env : PathEnv) (warnedFlag : Bool) (fs : FS) (filename : String) :
    ResolveResult :=
  let r := resolveWorkspaceDir env warnedFlag fs
  let logsDir := joinP r.dir "logs"
  ⟨joinP logsDir filename, r.warned, mkdirIfAbsent r.fs logsDir⟩

/-- A sequence of `resolveWorkspaceDir` calls inside one process,
threading the once-per-process flag; yields, per call, whether the
warning was printed and for which directory. -/
def wsWarnTrace (warnedFlag : Bool) : List (PathEnv × FS) → List (Bool × String)
  | [] => []
  | (env, fs) :: rest =>
    let r := resolveWorkspaceDir env warnedFlag fs
    (r.emitted, r.dir) :: wsWarnTrace r.warned rest

/-! ### Path lemmas -/

theorem isAbs_joinP (a b : String) (h : isAbsolutePath a = true) :
    isAbsolutePath (joinP a b) = true := by
  cases a with
  | mk d =>
    cases d with
    | nil => exact absurd h (by simp [isAbsolutePath])
    | cons c cs => exact h

theorem existsD_mkdirIfAbsent_self (fs : FS) (p : String) :
    existsD (mkdirIfAbsent fs p) p = true := by
  by_cases h : p ∈ fs.dirs
  · simp [mkdirIfAbsent, existsD, h]
  · simp [mkdirIfAbsent, existsD, h]

theorem existsD_mono (fs : FS) (p q : String) (h : existsD fs q = true) :
    existsD (mkdirIfAbsent fs p) q = true := by
  have hq : q ∈ fs.dirs := by simpa [existsD] using h
  by_cases hp : p ∈ fs.dirs
  · simp [mkdirIfAbsent, existsD, hp, hq]
  · simp [mkdirIfAbsent, existsD, hp, hq]

theorem existsD_createWorkspaceTree (fs : FS) (dir : String) :
    existsD (createWorkspaceTree fs dir) dir = true := by
  cases h : existsD fs dir with
  | true => simp [createWorkspaceTree, h]
  | false =>
    have h0 : existsD (⟨dir :: fs.dirs⟩ : FS) dir = true := by
      simp [existsD]
    simp only [createWorkspaceTree, h, Bool.false_eq_true, if_false]
    exact existsD_mono _ _ _ (existsD_mono _ _ _ (existsD_mono _ _ _ h0))

theorem workspaceDirChoice_abs (env : PathEnv)
    (hroot : isAbsolutePath env.projectRoot = true)
    (hasd : isAbsolutePath env.asdDir = true)
    (hsb : ∀ s, envSet (envOr env.sandboxDir env.executionDir) = some s →
        isAbsolutePath s = true) :
    isAbsolutePath (workspaceDirChoice env).1 = true := by
  unfold workspaceDirChoice
  cases hs : envSet (envOr env.sandboxDir env.executionDir) with
  | some sb => simpa using isAbs_joinP _ _ (isAbs_joinP _ _ (hsb sb hs))
  | none =>
    cases he : envSet (envOr env.asdWorkspaceDir env.workspaceDirVar) with
    | some e =>
      by_cases ha : isAbsolutePath e = true
      · simp [ha]
      · simp [ha, isAbs_joinP _ _ hroot]
    | none =>
      by_cases h1 : env.hasLocalAsdModules = true
      · simp [h1, isAbs_joinP _ _ (isAbs_joinP _ _ hroot)]
      · by_cases h2 : env.asdDir ≠ env.projectRoot
          ∧ env.asdDir ≠ joinP env.projectRoot ".asd"
        · simp [h1, h2, isAbs_joinP _ _ hroot]
        · simp [h1, h2, isAbs_joinP _ _ hasd]

theorem resolveWorkspaceDir_dir (env : PathEnv) (flag : Bool) (fs : FS) :
    (resolveWorkspaceDir env flag fs).dir = (workspaceDirChoice env).1 := by
  rcases h : workspaceDirChoice env with ⟨dir, early⟩
  cases early with
  | true => simp [resolveWorkspaceDir, h]
  | false => simp [resolveWorkspaceDir, h]

theorem resolveWorkspaceDir_dir_exists (env : PathEnv) (flag : Bool) (fs : FS) :
    existsD (resolveWorkspaceDir env flag fs).fs (resolveWorkspaceDir env flag fs).dir
      = true := by
  rcases h : workspaceDirChoice env with ⟨dir, early⟩
  cases early with
  | true =>
    simp only [resolveWorkspaceDir, h]
    exact existsD_mkdirIfAbsent_self fs dir
  | false =>
    simp only [resolveWorkspaceDir, h]
    exact existsD_createWorkspaceTree fs dir

theorem getAsdHomeDefaultBase_abs (env : PathEnv)
    (hhome : isAbsolutePath env.home = true)
    (hxdg : ∀ x, env.xdgDataHome = some x → x.isEmpty = false →
        isAbsolutePath x = true) :
    isAbsolutePath (getAsdHomeDefaultBase env) = true := by
  unfold getAsdHomeDefaultBase
  cases hx : env.xdgDataHome with
  | none => exact isAbs_joinP _ _ (isAbs_joinP _ _ hhome)
  | some x =>
    by_cases hxe : x.isEmpty = true
    · simp [hxe, isAbs_joinP _ _ (isAbs_joinP _ _ hhome)]
    · have := hxdg x hx (by simpa using hxe)
      simp [hxe, this]

theorem getAsdHome_abs (env : PathEnv)
    (hhome : isAbsolutePath env.home = true)
    (hxdg : ∀ x, env.xdgDataHome = some x → x.isEmpty = false →
        isAbsolutePath x = true)
    (hah : ∀ v, env.asdHome = some v → (trimChars v.data).isEmpty = false →
        isAbsolutePath (String.mk (trimChars v.data)) = true) :
    isAbsolutePath (getAsdHome env) = true := by
  have hbase := getAsdHomeDefaultBase_abs env hhome hxdg
  unfold getAsdHome
  cases hv : env.asdHome with
  | none => exact isAbs_joinP _ _ hbase
  | some v =>
    by_cases hve : v.isEmpty = true
    · simp [hve, isAbs_joinP _ _ hbase]
    · by_cases hvt : (trimChars v.data).isEmpty = true
      · simp [hve, hvt, isAbs_joinP _ _ hbase]
      · have := hah v hv (by simpa using hvt)
        simp [hve, hvt, this]

/-- C5 counterexample environment: `ASD_BIN_DIR=relbin` (a relative
value), everything else unset, on an empty filesystem. -/
def envBinRel : PathEnv :=
  ⟨none, none, none, none, some "relbin", none, none, none, none,
   "/h", "/p", "/p/.asd", false⟩

/-- Healthy environment for the C5 witness: no overriding variables. -/
def envPlain : PathEnv :=
  ⟨none, none, none, none, none, none, none, none, none,
   "/h", "/p", "/p/.asd", false⟩

/-- C5 counterexample: with `ASD_BIN_DIR` set to the relative value
`relbin`, `resolveBinDir` returns that value verbatim — a non-absolute
path — and creates nothing (the filesystem is unchanged and still
empty). This refutes both halves of the claim for the bin resolver when
its controlling environment variable is set. -/
theorem resolveBinDir_relative_env_counterexample :
    resolveBinDir envBinRel false ⟨[]⟩ = ⟨"relbin", false, ⟨[]⟩⟩
    ∧ isAbsolutePath "relbin" = false
    ∧ (resolveBinDir envBinRel false ⟨[]⟩).fs.dirs = [] := by
  refine ⟨by decide, by decide, by decide⟩

/-- C5 amended: given absolute ambient inputs, `resolveWorkspaceDir`
returns an absolute path and the directory exists afterwards (created on
first resolution); `resolveBinDir` behaves the same — but **only when
`ASD_BIN_DIR` is unset or blank**: when `ASD_BIN_DIR` is set non-blank,
it returns the trimmed environment value verbatim without creating
anything (so the result is absolute only if the variable's value is);
`resolveLogPath` returns the workspace `logs` directory joined with the
file name, absolute, with the `logs` directory existing afterwards. -/
theorem resolvers_absolute_and_create (env : PathEnv) (flag : Bool) (fs : FS)
    (filename : String)
    (hroot : isAbsolutePath env.projectRoot = true)
    (hasd : isAbsolutePath env.asdDir = true)
    (hsb : ∀ s, envSet (envOr env.sandboxDir env.executionDir) = some s →
        isAbsolutePath s = true)
    (hhome : isAbsolutePath env.home = true)
    (hxdg : ∀ x, env.xdgDataHome = some x → x.isEmpty = false →
        isAbsolutePath x = true)
    (hah : ∀ v, env.asdHome = some v → (trimChars v.data).isEmpty = false →
        isAbsolutePath (String.mk (trimChars v.data)) = true) :
    (isAbsolutePath (resolveWorkspaceDir env flag fs).dir = true
      ∧ existsD (resolveWorkspaceDir env flag fs).fs
          (resolveWorkspaceDir env flag fs).dir = true)
    ∧ (binEnvActive env = none →
        isAbsolutePath (resolveBinDir env flag fs).dir = true
        ∧ existsD (resolveBinDir env flag fs).fs (resolveBinDir env flag fs).dir = true)
    ∧ (∀ d, binEnvActive env = some d → resolveBinDir env flag fs = ⟨d, flag, fs⟩)
    ∧ ((resolveLogPath env flag fs filename).dir
        = joinP (joinP (resolveWorkspaceDir env flag fs).dir "logs") filename
      ∧ isAbsolutePath (resolveLogPath env flag fs filename).dir = true
      ∧ existsD (resolveLogPath env flag fs filename).fs
          (joinP (resolveWorkspaceDir env flag fs).dir "logs") = true) := by
  have hwsabs : isAbsolutePath (resolveWorkspaceDir env flag fs).dir = true := by
    rw [resolveWorkspaceDir_dir]
    exact workspaceDirChoice_abs env hroot hasd hsb
  refine ⟨⟨hwsabs, resolveWorkspaceDir_dir_exists env flag fs⟩, ?_, ?_, ?_, ?_, ?_⟩
  · intro hnone
    unfold resolveBinDir
    rw [hnone]
    unfold resolveBinDirLocated
    cases hloc : getBinLocation env with
    | locWorkspace =>
      refine ⟨isAbs_joinP _ _ ?_, existsD_mkdirIfAbsent_self _ _⟩
      rw [resolveWorkspaceDir_dir]
      exact workspaceDirChoice_abs env hroot hasd hsb
    | locGlobal =>
      exact ⟨isAbs_joinP _ _ (getAsdHome_abs env hhome hxdg hah),
        existsD_mkdirIfAbsent_self _ _⟩
  · intro d hd
    unfold resolveBinDir
    rw [hd]
  · simp [resolveLogPath]
  · simp only [resolveLogPath]
    exact isAbs_joinP _ _ (isAbs_joinP _ _ hwsabs)
  · simp only [resolveLogPath]
    exact existsD_mkdirIfAbsent_self _ _

/-- C5 amended, instantiated in a plain environment (no overriding
variables, absolute project root `/p` and home `/h`, empty filesystem):
the workspace resolution is absolute and the bin directory exists after
resolution. -/
theorem resolvers_absolute_and_create_witness :
    isAbsolutePath (resolveWorkspaceDir envPlain false ⟨[]⟩).dir = true
    ∧ existsD (resolveBinDir envPlain false ⟨[]⟩).fs
        (resolveBinDir envPlain false ⟨[]⟩).dir = true := by
  have h := resolvers_absolute_and_create envPlain false ⟨[]⟩ "svc.log"
    (by decide) (by decide) (fun s hs => Option.noConfusion hs) (by decide)
    (fun x hx => Option.noConfusion hx) (fun v hv => Option.noConfusion hv)
  exact ⟨h.1.1, (h.2.1 rfl).2⟩

/-! ### C9 lemmas -/

theorem resolveWorkspaceDir_warned (env : PathEnv) (flag : Bool) (fs : FS) :
    (resolveWorkspaceDir env flag fs).warned
      = (flag || (resolveWorkspaceDir env flag fs).emitted) := by
  rcases h : workspaceDirChoice env with ⟨dir, early⟩
  cases early with
  | true => simp [resolveWorkspaceDir, h]
  | false => simp [resolveWorkspaceDir, h]

theorem resolveWorkspaceDir_emitted_flagged (env : PathEnv) (fs : FS) :
    (resolveWorkspaceDir env true fs).emitted = false := by
  rcases h : workspaceDirChoice env with ⟨dir, early⟩
  cases early with
  | true => simp [resolveWorkspaceDir, h]
  | false => simp [resolveWorkspaceDir, h]

theorem resolveWorkspaceDir_emitted_ci (env : PathEnv) (flag : Bool) (fs : FS)
    (h : (resolveWorkspaceDir env flag fs).emitted = true) :
    isGitHubAsdRepoPath (resolveWorkspaceDir env flag fs).dir = false := by
  rcases hc : workspaceDirChoice env with ⟨dir, early⟩
  cases early with
  | true => simp [resolveWorkspaceDir, hc] at h
  | false =>
    simp only [resolveWorkspaceDir, hc, Bool.and_eq_true, Bool.not_eq_true'] at h ⊢
    exact h.1.1

theorem wsWarnTrace_flagged (calls : List (PathEnv × FS)) :
    ∀ p ∈ wsWarnTrace true calls, p.1 = false := by
  induction calls with
  | nil => simp [wsWarnTrace]
  | cons c rest ih =>
    rcases c with ⟨env, fs⟩
    intro p hp
    simp only [wsWarnTrace] at hp
    have hw : (resolveWorkspaceDir env true fs).warned = true := by
      rw [resolveWorkspaceDir_warned]
      simp
    rw [hw] at hp
    rcases List.mem_cons.mp hp with h1 | h2
    · rw [h1]
      exact resolveWorkspaceDir_emitted_flagged env fs
    · exact ih p h2

theorem wsWarnTrace_countP_flagged (calls : List (PathEnv × FS)) :
    (wsWarnTrace true calls).countP (fun p => p.1) = 0 := by
  rw [List.countP_eq_zero]
  intro a ha
  simp [wsWarnTrace_flagged calls a ha]

theorem wsWarnTrace_all_flagged (calls : List (PathEnv × FS)) :
    (wsWarnTrace true calls).all
      (fun p => !p.1 || !isGitHubAsdRepoPath p.2) = true := by
  rw [List.all_eq_true]
  intro p hp
  simp [wsWarnTrace_flagged calls p hp]

/-- C9: across any sequence of `resolveWorkspaceDir` calls within one
process (the once-per-process flag starts unset), the doubled
`.asd/.asd` misconfiguration warning is printed at most once, and every
call that prints it resolved a directory that does **not** match a known
CI layout (GitHub Actions `/work/.asd/.asd`, its backslash form, or the
case-insensitive Windows `D:\a\.asd\.asd` drive shape). -/
theorem workspace_warning_once_and_not_ci (calls : List (PathEnv × FS)) :
    (wsWarnTrace false calls).countP (fun p => p.1) ≤ 1
    ∧ (wsWarnTrace false calls).all
        (fun p => !p.1 || !isGitHubAsdRepoPath p.2) = true := by
  induction calls with
  | nil => exact ⟨by simp [wsWarnTrace], by simp [wsWarnTrace]⟩
  | cons c rest ih =>
    rcases c with ⟨env, fs⟩
    have hw := resolveWorkspaceDir_warned env false fs
    cases he : (resolveWorkspaceDir env false fs).emitted with
    | false =>
      have hw0 : (resolveWorkspaceDir env false fs).warned = false := by
        rw [hw, he]
        rfl
      constructor
      · simp only [wsWarnTrace, hw0, List.countP_cons, he]
        simpa using ih.1
      · simp only [wsWarnTrace, hw0, List.all_cons, he]
        simpa using ih.2
    | true =>
      have hw1 : (resolveWorkspaceDir env false fs).warned = true := by
        rw [hw, he]
        rfl
      have hci := resolveWorkspaceDir_emitted_ci env false fs he
      constructor
      · simp only [wsWarnTrace, hw1, List.countP_cons, he]
        simp [wsWarnTrace_countP_flagged rest]
      · simp only [wsWarnTrace, hw1, List.all_cons, he]
        simp [hci, wsWarnTrace_all_flagged rest]

end ASDCli
